import Mathlib

/-!
Verification of the music-folder-organizer pipeline
(`src/music_folder_organizer.py`) against its specification.

Shallow embedding:
* a filesystem path is a list of name components (`Path`);
* track metadata is a record of the five tag fields (`TrackInfo`);
* the flat destination filesystem is a list of `(path, file-id)` pairs,
  the id standing for the identity/content of a file;
* the source directory tree (used by the scanner and the empty-directory
  collector) is a rose tree (`Entry`);
* the external tag-reading library and filesystem failures are an oracle
  (`Env`): `meta` gives the metadata `get_music_info` would return
  (`none` when the file cannot be opened as tagged audio) and `moveOk`
  tells whether `mkdir`/`shutil.move` succeed for a given source file.
  `@print_errors`-wrapped functions returning `None` on an exception are
  modelled with `Option` / explicit abort flags.

Python's Unicode `str.upper` is approximated by ASCII `Char.toUpper`;
no claim below depends on non-ASCII casing.
-/

/-- A filesystem path, as its list of name components. -/
abbrev FPath := List String

/-- The record produced by `get_music_info` (lines 31-41): the five tag
fields, each already defaulted to `"Unknown"` when the tag is absent. -/
structure TrackInfo where
  name : String
  artists : String
  main_artist : String
  year : String
  album : String
deriving DecidableEq, Repr

/-- MUSIC_EXTENSIONS (line 13). -/
def MUSIC_EXTENSIONS : List String := [".mp3", ".flac", ".wav", ".m4a"]

/-- Characters removed by the regex `[<>:"/\\|?*]` (line 29). -/
def forbiddenChar (c : Char) : Bool :=
  c = '<' || c = '>' || c = ':' || c = '\"' || c = '/' || c = '\\' ||
  c = '|' || c = '?' || c = '*'

/-- sanitize_folder_name (lines 27-29): remove every forbidden character. -/
def sanitize_folder_name (s : String) : String :=
  String.mk (s.data.filter (fun c => !(forbiddenChar c)))

/-- Python `str[0].upper()` for a nonempty string, extended by `""` on the
empty string (ASCII casing). -/
def upperFirst (s : String) : String :=
  match s.data with
  | [] => ""
  | c :: _ => String.mk [c.toUpper]

/-- The three directory components computed by `move_music_file`
(lines 46-50): first letter, main artist, sanitized album, with Python
falsy (empty) fields replaced by `'Unknown'` first. -/
def destParts (info : TrackInfo) : String × String × String :=
  let main_artist := if info.main_artist = "" then "Unknown" else info.main_artist
  let first_letter := if main_artist ≠ "Unknown" then upperFirst main_artist else "Unknown"
  let album := if info.album = "" then "Unknown" else info.album
  (first_letter, main_artist, sanitize_folder_name album)

/-- The full destination path `new_path` of `move_music_file`
(lines 51-54): `base_folder / first_letter / main_artist / album / name`. -/
def destPath (info : TrackInfo) (base : FPath) (fname : String) : FPath :=
  base ++ [(destParts info).1, (destParts info).2.1, (destParts info).2.2, fname]

/-- Stated from the claim's words, for comparison with `destPath`: the
destination formula `base_root / first_letter / main_artist /
sanitized(album) / original_filename` with `main_artist` inserted verbatim
and only the album sanitized, `first_letter` being `"Unknown"` exactly when
`main_artist = "Unknown"`. -/
def claimDestPath (info : TrackInfo) (base : FPath) (fname : String) : FPath :=
  base ++ [if info.main_artist = "Unknown" then "Unknown" else upperFirst info.main_artist,
           info.main_artist, sanitize_folder_name info.album, fname]

/-- The `'Unknown'`-substitution of lines 46 and 48, as a record map. -/
def substInfo (info : TrackInfo) : TrackInfo :=
  { info with
    main_artist := if info.main_artist = "" then "Unknown" else info.main_artist,
    album := if info.album = "" then "Unknown" else info.album }

example : sanitize_folder_name "Best:Of" = "BestOf" := by decide
example : destPath ⟨"X", "Y", "Artist/Z", "2020", "Best:Of"⟩ [] "song.mp3"
    = ["A", "Artist/Z", "BestOf", "song.mp3"] := by decide

/-- Python `pathlib` `suffix`: the extension of the final component, empty
when the last dot is at position 0 (hidden file), at the very end, or
absent. -/
def suffixOf (name : String) : String :=
  let cs := name.data
  match (((cs.enum.filter (fun p => p.2 = '.')).map Prod.fst)).getLast? with
  | none => ""
  | some i => if 0 < i ∧ i < cs.length - 1 then String.mk (cs.drop i) else ""

example : suffixOf "a.mp3" = ".mp3" := by decide
example : suffixOf ".mp3" = "" := by decide
example : suffixOf "a.b.flac" = ".flac" := by decide
example : suffixOf "a." = "" := by decide
example : suffixOf "song" = "" := by decide

/-- The scanner's test (line 85): `file_path.suffix in MUSIC_EXTENSIONS`,
case-sensitive. -/
def suffixMatch (p : FPath) : Bool :=
  MUSIC_EXTENSIONS.contains (suffixOf (p.getLastD ""))

/-- A manifest data row (line 73): the five metadata fields and
`new_path`, which is `None` when `move_music_file` failed. -/
abbrev Row := TrackInfo × Option FPath

/-- The flat destination filesystem: existing files as `(path, id)` pairs,
the `Nat` id standing for a file's identity/content. -/
abbrev FS := List (FPath × Nat)

/-- Which file (by id) is at a path, as `os` would resolve it. -/
def lookupFS (fs : FS) (p : FPath) : Option Nat :=
  match fs.find? (fun e => e.1 = p) with
  | some e => some e.2
  | none => none

/-- shutil.move (line 55): the file disappears from `src`, and lands at
`dst`, overwriting whatever file was there. -/
def moveFS (fs : FS) (src dst : FPath) (id : Nat) : FS :=
  (fs.filter (fun e => !(e.1 = src : Bool) && !(e.1 = dst : Bool))) ++ [(dst, id)]

/-- The external world of one run: what `EasyID3` (via `get_music_info`)
returns for each file — `none` when the file cannot be opened as tagged
audio — and whether `mkdir`/`shutil.move` succeed for a given source file
(`false` models a permissions/disk error raised inside `move_music_file`
and caught by its `@print_errors` wrapper). -/
structure Env where
  meta : FPath → Option TrackInfo
  moveOk : FPath → Bool

/-- move_music_file (lines 43-56): compute the destination from the
metadata, create directories, move. Returns `(new_path?, fs)`: on any
caught exception (mkdir/move failure, or the source file missing) the
wrapper returns `None` and the filesystem keeps the file where it was. -/
def move_music_file (ok : Bool) (fs : FS) (fp : FPath) (info : TrackInfo)
    (base : FPath) : Option FPath × FS :=
  let dst := destPath info base (fp.getLastD "")
  if ok then
    match lookupFS fs fp with
    | some id => (some dst, moveFS fs fp dst id)
    | none => (none, fs)
  else (none, fs)

/-- The state threaded through a run: the destination filesystem and the
manifest data rows written so far (the header row is not modelled). -/
structure PState where
  fs : FS
  rows : List Row
deriving DecidableEq

/-- The per-file body of process_batch (lines 69-73): extract metadata;
if the extraction returned something, move the file and append one
manifest row recording `new_path` (possibly `None`); otherwise skip. -/
def processFile (env : Env) (base : FPath) (st : PState) (fp : FPath) : PState :=
  match env.meta fp with
  | none => st
  | some info =>
      let r := move_music_file (env.moveOk fp) st.fs fp info base
      { fs := r.2, rows := st.rows ++ [(info, r.1)] }

/-- process_batch (lines 66-73): process the files of a batch in order. -/
def process_batch (env : Env) (base : FPath) (st : PState) (files : List FPath) : PState :=
  files.foldl (processFile env base) st

/-- The scanning-and-batching loop of process_music_folder (lines 82-94):
walk the snapshot of paths, collect those whose suffix is a music
extension into a batch, flush a batch when it reaches `bs` files, and
flush the remainder at the end. -/
def orchLoop (env : Env) (base : FPath) (bs : Nat) :
    List FPath → List FPath → Nat → PState → PState
  | [], batch, _, st => if batch.isEmpty then st else process_batch env base st batch
  | fp :: rest, batch, cnt, st =>
      if suffixMatch fp then
        if cnt + 1 ≥ bs then
          orchLoop env base bs rest [] 0 (process_batch env base st (batch ++ [fp]))
        else orchLoop env base bs rest (batch ++ [fp]) (cnt + 1) st
      else orchLoop env base bs rest batch cnt st

/-- An entry of the source directory tree: a file or a directory with an
ordered list of children (`os.scandir` order). -/
inductive Entry where
  | file (name : String)
  | dir (name : String) (children : List Entry)
deriving Repr

/-- The name of an entry. -/
def Entry.entryName : Entry → String
  | .file n => n
  | .dir n _ => n

mutual

/-- `Path.rglob('*')` below one entry sitting at path `here`: nothing for
a file; for a directory, its children first, then the recursive listing of
each child in order — CPython's `**` pre-order over directories, each
directory contributing its `scandir` entries. -/
def rglobSub (here : FPath) : Entry → List (FPath × Entry)
  | .file _ => []
  | .dir n cs =>
      (cs.map (fun e => (here ++ [n, e.entryName], e))) ++ rglobChildren (here ++ [n]) cs

/-- The recursive listings of a forest of sibling entries, in order. -/
def rglobChildren (here : FPath) : List Entry → List (FPath × Entry)
  | [] => []
  | e :: es => rglobSub here e ++ rglobChildren here es

end

/-- `folder_path.rglob('*')` (lines 61 and 83): every entry below the root,
paired with its path relative to the root. -/
def rglobRoot : Entry → List (FPath × Entry)
  | .file _ => []
  | .dir _ cs => (cs.map (fun e => ([e.entryName], e))) ++ rglobChildren [] cs

/-- Resolve a relative path inside a tree. -/
def Entry.lookupPath : Entry → FPath → Option Entry
  | e, [] => some e
  | .file _, _ :: _ => none
  | .dir _ cs, n :: rest =>
      match cs.find? (fun e => e.entryName = n) with
      | some c => c.lookupPath rest
      | none => none

/-- `dir.is_dir() and not any(dir.iterdir())` (line 62) at a path: the path
still resolves to a directory and that directory has no entries. -/
def isEmptyDirAt (t : Entry) (p : FPath) : Bool :=
  match t.lookupPath p with
  | some (.dir _ []) => true
  | _ => false

/-- Remove the entry at a (nonempty) relative path from a tree (`rmdir`). -/
def removeAt : Entry → FPath → Entry
  | e, [] => e
  | .file n, _ :: _ => .file n
  | .dir n cs, [m] => .dir n (cs.filter (fun e => !(e.entryName = m : Bool)))
  | .dir n cs, m :: r :: rest =>
      .dir n (cs.map (fun e => if e.entryName = m then removeAt e (r :: rest) else e))

example : rglobRoot (.dir "" [.dir "A" [.dir "C" []], .file "b.mp3"])
    = [(["A"], .dir "A" [.dir "C" []]), (["b.mp3"], .file "b.mp3"),
       (["A", "C"], .dir "C" [])] := rfl

example : (rglobRoot (.dir "" [.dir "A" [.dir "C" []], .file "b.mp3"])).map Prod.fst
    = [["A"], ["b.mp3"], ["A", "C"]] := by decide

/-- Whether an entry is a directory (`dir.is_dir()`). -/
def Entry.isDir : Entry → Bool
  | .file _ => false
  | .dir _ _ => true

/-- The loop body of delete_empty_folders (lines 61-64) over a snapshot of
paths, with `prot p = true` marking a directory whose `rmdir` raises (for
example a permissions error). The `@print_errors` wrapper sits on the whole
function, so the first raised exception aborts the remaining iterations;
the result records the tree, the directories deleted (in order), and
whether the pass was aborted by an exception. -/
def runPaths (prot : FPath → Bool) : List FPath → Entry → Entry × List FPath × Bool
  | [], t => (t, [], false)
  | p :: ps, t =>
      if isEmptyDirAt t p then
        if prot p then (t, [], true)
        else
          let r := runPaths prot ps (removeAt t p)
          (r.1, p :: r.2.1, r.2.2)
      else runPaths prot ps t

/-- delete_empty_folders (lines 58-64) with an explicit failure model:
walk `rglob('*')`, delete every directory found empty, abort the pass at
the first failing `rmdir`. -/
def deleteEmptyFoldersP (prot : FPath → Bool) (t : Entry) : Entry × List FPath × Bool :=
  runPaths prot ((rglobRoot t).map Prod.fst) t

/-- delete_empty_folders when no `rmdir` fails: the resulting tree and the
directories deleted, in traversal order. -/
def delete_empty_folders (t : Entry) : Entry × List FPath :=
  ((deleteEmptyFoldersP (fun _ => false) t).1, (deleteEmptyFoldersP (fun _ => false) t).2.1)

/-- Modelled from the spec: the Empty-Directory Collector whose error
policy is "failure to delete a given directory (e.g., race, permissions)
is caught and logged; processing continues for siblings" — the
per-directory containment the code does not have. A failing directory is
skipped and the walk continues. -/
def runPathsSpec (prot : FPath → Bool) : List FPath → Entry → Entry × List FPath
  | [], t => (t, [])
  | p :: ps, t =>
      if isEmptyDirAt t p then
        if prot p then runPathsSpec prot ps t
        else
          let r := runPathsSpec prot ps (removeAt t p)
          (r.1, p :: r.2)
      else runPathsSpec prot ps t

/-- Modelled from the spec: the whole collector under the per-directory
error containment of §4.7 of the spec. -/
def deleteEmptyFoldersSpec (prot : FPath → Bool) (t : Entry) : Entry × List FPath :=
  runPathsSpec prot ((rglobRoot t).map Prod.fst) t

/-- The Candidate File Set: the scanner's output, namely every path of the
`rglob('*')` snapshot whose `suffix` is a music extension (line 85). -/
def candidateFiles (t : Entry) : List FPath :=
  ((rglobRoot t).map Prod.fst).filter suffixMatch

/-- process_music_folder (lines 75-94), without the optional cleanup pass:
snapshot the tree, then run the scanning-and-batching loop with batch size
`bs` over the snapshot, starting from manifest/destination state `st`. -/
def process_music_folder (env : Env) (base : FPath) (bs : Nat) (t : Entry)
    (st : PState) : PState :=
  orchLoop env base bs ((rglobRoot t).map Prod.fst) [] 0 st


/-! ### Helper lemmas -/

/-- A nonempty string stays nonempty under `upperFirst`. -/
theorem upperFirst_ne_empty (s : String) (h : s ≠ "") : upperFirst s ≠ "" := by
  cases s with
  | mk data =>
    cases data with
    | nil => exact absurd rfl h
    | cons c cs =>
      simp only [upperFirst]
      intro hc
      have := congrArg String.data hc
      simp at this

/-! ### C6: the sanitizer -/

/-- C6: the sanitizer is a pure total function on strings: it is
idempotent, its output contains none of the characters `< > : " / \ | ? *`,
and an input consisting solely of such characters sanitizes to the empty
string. -/
theorem c6_sanitizer (x : String) :
    sanitize_folder_name (sanitize_folder_name x) = sanitize_folder_name x ∧
    (∀ c ∈ (sanitize_folder_name x).data, forbiddenChar c = false) ∧
    ((∀ c ∈ x.data, forbiddenChar c = true) → sanitize_folder_name x = "") := by
  refine ⟨?_, ?_, ?_⟩
  · show String.mk ((x.data.filter _).filter _) = _
    have : ∀ c ∈ x.data.filter (fun c => !(forbiddenChar c)),
        (fun c => !(forbiddenChar c)) c = true :=
      fun c hc => (List.mem_filter.mp hc).2
    rw [List.filter_eq_self.mpr this]
    rfl
  · intro c hc
    have := (List.mem_filter.mp hc).2
    simpa using this
  · intro hall
    show String.mk (x.data.filter _) = ""
    have : x.data.filter (fun c => !(forbiddenChar c)) = [] := by
      rw [List.filter_eq_nil_iff]
      intro c hc
      simp [hall c hc]
    rw [this]

/-- C6 witness: the sanitizer theorem at the concrete strings `"a*b"`
(idempotence) and `"?*"` (all characters forbidden). -/
theorem c6_sanitizer_witness :
    sanitize_folder_name (sanitize_folder_name "a*b") = sanitize_folder_name "a*b" ∧
    sanitize_folder_name "?*" = "" :=
  ⟨(c6_sanitizer "a*b").1, (c6_sanitizer "?*").2.2 (by decide)⟩

/-! ### C1: the destination-path formula -/

/-- C1 counterexample: at a record with a present but empty `album`, the
code's destination inserts `"Unknown"` for the album component, while the
claim's formula `base_root / first_letter / main_artist / sanitized(album)
/ original_filename` yields the empty component `sanitized("") = ""`, so
the two paths differ. -/
theorem c1_counterexample :
    destPath ⟨"t", "a", "A", "2020", ""⟩ [] "f.mp3"
        ≠ claimDestPath ⟨"t", "a", "A", "2020", ""⟩ [] "f.mp3" ∧
    destPath ⟨"t", "a", "A", "2020", ""⟩ [] "f.mp3" = ["A", "A", "Unknown", "f.mp3"] ∧
    claimDestPath ⟨"t", "a", "A", "2020", ""⟩ [] "f.mp3" = ["A", "A", "", "f.mp3"] := by
  refine ⟨?_, ?_, ?_⟩ <;> decide

/-- C1 amended: the destination path computed before the move equals
`base_root / first_letter / main_artist / sanitized(album) /
original_filename` — with `main_artist` inserted verbatim (unsanitized)
and only the album sanitized — once an empty `main_artist` or `album`
field has first been replaced by `"Unknown"`; `first_letter` is
`"Unknown"` when the (possibly substituted) `main_artist` equals
`"Unknown"`, else its uppercased first character. -/
theorem c1_amended (info : TrackInfo) (base : FPath) (fname : String) :
    destPath info base fname = claimDestPath (substInfo info) base fname := by
  simp only [destPath, destParts, claimDestPath, substInfo]
  by_cases h : (if info.main_artist = "" then "Unknown" else info.main_artist) = "Unknown" <;>
    simp [h]

/-! ### C10: empty-field substitution -/

/-- C10 counterexample: a record whose `album` is present and nonempty
(`"///"`) still produces an empty album path component, because the
sanitizer strips every character; hence it is false that no destination
component derived from `album` is ever the empty string. -/
theorem c10_counterexample :
    (⟨"t", "a", "A", "2020", "///"⟩ : TrackInfo).album ≠ "" ∧
    (destParts ⟨"t", "a", "A", "2020", "///"⟩).2.2 = "" ∧
    destPath ⟨"t", "a", "A", "2020", "///"⟩ [] "f.mp3" = ["A", "A", "", "f.mp3"] := by
  refine ⟨?_, ?_, ?_⟩ <;> decide

/-- C10 amended: an empty (present) `main_artist` or `album` is replaced by
`"Unknown"` exactly as if the field had been absent, and the first-letter
and main-artist components are never empty; the sanitized album component,
however, can be empty when a nonempty album consists solely of forbidden
characters. -/
theorem c10_amended (info : TrackInfo) (base : FPath) (fname : String) :
    destPath { info with main_artist := "" } base fname
        = destPath { info with main_artist := "Unknown" } base fname ∧
    destPath { info with album := "" } base fname
        = destPath { info with album := "Unknown" } base fname ∧
    (destParts info).1 ≠ "" ∧ (destParts info).2.1 ≠ "" := by
  refine ⟨rfl, rfl, ?_, ?_⟩
  · by_cases h : (if info.main_artist = "" then "Unknown" else info.main_artist) = "Unknown"
    · simp [destParts, h]
    · have hne : (if info.main_artist = "" then "Unknown" else info.main_artist) ≠ "" := by
        by_cases h0 : info.main_artist = "" <;> simp [h0]
      simp only [destParts, if_neg (fun hc => h hc), ne_eq]
      simpa [h] using upperFirst_ne_empty _ hne
  · by_cases h0 : info.main_artist = "" <;> simp [destParts, h0]

/-! ### C4: whole-file metadata failure skips the file -/

/-- C4: when metadata extraction fails as a whole (`get_music_info`
returns nothing), the batch processor skips the file entirely: its state
— destination filesystem and manifest rows alike — is untouched, and the
batch continues exactly as if the file were absent from it. -/
theorem c4_metadata_failure_skips (env : Env) (base : FPath) (st : PState)
    (fp : FPath) (pre post : List FPath) (h : env.meta fp = none) :
    processFile env base st fp = st ∧
    process_batch env base st (pre ++ fp :: post) = process_batch env base st (pre ++ post) := by
  have hf : ∀ s, processFile env base s fp = s := fun s => by simp [processFile, h]
  refine ⟨hf st, ?_⟩
  simp only [process_batch, List.foldl_append, List.foldl_cons, hf]

/-- C4 witness: a concrete environment in which one file's tags are
unreadable while its neighbour's are fine: the unreadable file is skipped
and the batch result equals that of the batch without it. -/
theorem c4_metadata_failure_skips_witness :
    processFile
        ⟨fun p => if p = ["bad.mp3"] then none else some ⟨"t", "a", "A", "2020", "B"⟩,
         fun _ => true⟩ []
        ⟨[(["bad.mp3"], 0), (["ok.mp3"], 1)], []⟩ ["bad.mp3"]
      = ⟨[(["bad.mp3"], 0), (["ok.mp3"], 1)], []⟩ ∧
    process_batch
        ⟨fun p => if p = ["bad.mp3"] then none else some ⟨"t", "a", "A", "2020", "B"⟩,
         fun _ => true⟩ []
        ⟨[(["bad.mp3"], 0), (["ok.mp3"], 1)], []⟩ ([["bad.mp3"]] ++ [["ok.mp3"]])
      = process_batch
        ⟨fun p => if p = ["bad.mp3"] then none else some ⟨"t", "a", "A", "2020", "B"⟩,
         fun _ => true⟩ []
        ⟨[(["bad.mp3"], 0), (["ok.mp3"], 1)], []⟩ [["ok.mp3"]] := by
  have h := c4_metadata_failure_skips
    ⟨fun p => if p = ["bad.mp3"] then none else some ⟨"t", "a", "A", "2020", "B"⟩,
     fun _ => true⟩ []
    ⟨[(["bad.mp3"], 0), (["ok.mp3"], 1)], []⟩ ["bad.mp3"] [] [["ok.mp3"]] (by decide)
  exact ⟨h.1, h.2⟩

/-! ### C2: manifest row count -/

/-- C2 counterexample: a file whose metadata extraction succeeds but whose
move fails is skipped (its file stays where it was — zero files were
successfully processed) yet it still appends one manifest row, with `None`
in the destination column; so the row count exceeds the number of
successfully processed files. -/
theorem c2_counterexample :
    (process_batch ⟨fun _ => some ⟨"t", "a", "A", "2020", "B"⟩, fun _ => false⟩ []
        ⟨[(["x.mp3"], 0)], []⟩ [["x.mp3"]]).rows
      = [(⟨"t", "a", "A", "2020", "B"⟩, none)] ∧
    (process_batch ⟨fun _ => some ⟨"t", "a", "A", "2020", "B"⟩, fun _ => false⟩ []
        ⟨[(["x.mp3"], 0)], []⟩ [["x.mp3"]]).fs
      = [(["x.mp3"], 0)] := by
  refine ⟨?_, ?_⟩ <;> decide

/-- C2 amended: the number of manifest data rows appended by a batch
equals the number of its files whose metadata extraction succeeded: an
extraction failure produces no row, while a destination-creation or move
failure still produces a row (with an empty destination column). -/
theorem c2_amended (env : Env) (base : FPath) (files : List FPath) :
    ∀ st : PState, (process_batch env base st files).rows.length
      = st.rows.length + files.countP (fun f => (env.meta f).isSome) := by
  induction files with
  | nil => intro st; simp [process_batch]
  | cons f fs ih =>
      intro st
      show (process_batch env base (processFile env base st f) fs).rows.length = _
      rw [ih]
      cases hm : env.meta f with
      | none => simp [processFile, hm, List.countP_cons]
      | some info =>
          simp [processFile, hm, List.countP_cons]
          omega

/-! ### C3: move semantics -/

/-- Membership in the filesystem after a successful move: the moved file's
id sits exactly at the destination, and the source path is gone. -/
theorem moveFS_spec (fs : FS) (src dst : FPath) (id : Nat)
    (huniq : ∀ e ∈ fs, e.2 = id → e.1 = src) :
    (dst, id) ∈ moveFS fs src dst id ∧
    (∀ e ∈ moveFS fs src dst id, e.2 = id → e.1 = dst) ∧
    (src ≠ dst → ∀ j, (src, j) ∉ moveFS fs src dst id) := by
  refine ⟨List.mem_append_right _ (List.mem_singleton.mpr rfl), ?_, ?_⟩
  · intro e he hid
    rcases List.mem_append.mp he with hf | hl
    · have hm := List.mem_filter.mp hf
      have hpred := hm.2
      simp only [Bool.and_eq_true, Bool.not_eq_true', decide_eq_false_iff_not] at hpred
      exact absurd (huniq e hm.1 hid) hpred.1
    · rw [List.mem_singleton.mp hl]
  · intro hne j hmem
    rcases List.mem_append.mp hmem with hf | hl
    · have hm := List.mem_filter.mp hf
      have hpred := hm.2
      simp at hpred
    · exact hne (congrArg Prod.fst (List.mem_singleton.mp hl))

/-- C3: for a file whose processing succeeds (metadata extracted, move
allowed, the file present at its source path and nowhere else), the file
is at exactly one of the two locations at each of the two observable
points: before the move it is at the original path and (when the two
differ) not at the destination, and after the move it is at the resolved
destination and the original path no longer exists. The move is a single
atomic step of the model, so no state with both or neither copy exists. -/
theorem c3_move_exactly_one (env : Env) (base : FPath) (st : PState)
    (fp : FPath) (info : TrackInfo) (id : Nat)
    (hm : env.meta fp = some info) (hok : env.moveOk fp = true)
    (hlk : lookupFS st.fs fp = some id)
    (huniq : ∀ e ∈ st.fs, e.2 = id → e.1 = fp) :
    ((fp, id) ∈ st.fs ∧
     (fp ≠ destPath info base (fp.getLastD "") →
       (destPath info base (fp.getLastD ""), id) ∉ st.fs)) ∧
    ((destPath info base (fp.getLastD ""), id) ∈ (processFile env base st fp).fs ∧
     (∀ e ∈ (processFile env base st fp).fs,
        e.2 = id → e.1 = destPath info base (fp.getLastD "")) ∧
     (fp ≠ destPath info base (fp.getLastD "") →
       ∀ j, (fp, j) ∉ (processFile env base st fp).fs)) := by
  have hmem : (fp, id) ∈ st.fs := by
    unfold lookupFS at hlk
    cases hfind : st.fs.find? (fun e => e.1 = fp) with
    | none => rw [hfind] at hlk; exact absurd hlk (by simp)
    | some e0 =>
        rw [hfind] at hlk
        have hid : e0.2 = id := by
          simpa using hlk
        have hfp : e0.1 = fp := by
          have := List.find?_some hfind
          simpa using this
        have := List.mem_of_find?_eq_some hfind
        rw [← hfp, ← hid]
        exact this
  have hfs : (processFile env base st fp).fs
      = moveFS st.fs fp (destPath info base (fp.getLastD "")) id := by
    simp [processFile, hm, move_music_file, hok, hlk]
  have hspec := moveFS_spec st.fs fp (destPath info base (fp.getLastD "")) id huniq
  refine ⟨⟨hmem, ?_⟩, ?_, ?_, ?_⟩
  · intro hne hdst
    exact hne (huniq _ hdst rfl).symm
  · rw [hfs]; exact hspec.1
  · rw [hfs]; exact hspec.2.1
  · rw [hfs]; exact hspec.2.2

/-- C3 witness: one concrete file `s/x.mp3` with readable tags, a
permitted move, present exactly at its source: after processing it sits at
the resolved destination and the source path is gone. -/
theorem c3_move_exactly_one_witness :
    (["A", "A", "B", "x.mp3"], 5) ∈
      (processFile ⟨fun _ => some ⟨"t", "a", "A", "2020", "B"⟩, fun _ => true⟩ []
        ⟨[(["s", "x.mp3"], 5)], []⟩ ["s", "x.mp3"]).fs ∧
    (∀ j, (["s", "x.mp3"], j) ∉
      (processFile ⟨fun _ => some ⟨"t", "a", "A", "2020", "B"⟩, fun _ => true⟩ []
        ⟨[(["s", "x.mp3"], 5)], []⟩ ["s", "x.mp3"]).fs) := by
  have h := c3_move_exactly_one
    ⟨fun _ => some ⟨"t", "a", "A", "2020", "B"⟩, fun _ => true⟩ []
    ⟨[(["s", "x.mp3"], 5)], []⟩ ["s", "x.mp3"] ⟨"t", "a", "A", "2020", "B"⟩ 5
    rfl rfl (by decide) (by decide)
  exact ⟨h.2.1, h.2.2.2 (by decide)⟩

/-! ### The orchestration loop is batching-invariant -/

/-- The scanning-and-batching loop, whatever the batch size and whatever
partial batch it carries, is one left fold of the per-file step over the
suffix-matching paths of the remaining snapshot. -/
theorem orchLoop_eq (env : Env) (base : FPath) (bs : Nat) (files : List FPath) :
    ∀ (batch : List FPath) (cnt : Nat) (st : PState),
      orchLoop env base bs files batch cnt st
        = process_batch env base st (batch ++ files.filter suffixMatch) := by
  induction files with
  | nil =>
      intro batch cnt st
      by_cases hb : batch.isEmpty
      · rw [List.isEmpty_iff] at hb
        simp [orchLoop, hb, process_batch]
      · simp [orchLoop, hb, process_batch]
  | cons fp rest ih =>
      intro batch cnt st
      cases hsm : suffixMatch fp with
      | false => simp [orchLoop, hsm, ih]
      | true =>
          by_cases hge : cnt + 1 ≥ bs
          · simp only [orchLoop, hsm, if_pos hge, ih, List.filter_cons, if_pos rfl]
            simp [process_batch, List.foldl_append, hsm]
          · simp only [orchLoop, hsm, if_neg hge, ih, List.filter_cons]
            simp [hsm]

/-- process_music_folder, for every batch size, processes exactly the
Candidate File Set — the suffix-matching paths of the snapshot, in
traversal order — as one sequence of per-file steps. -/
theorem process_music_folder_eq (env : Env) (base : FPath) (bs : Nat)
    (t : Entry) (st : PState) :
    process_music_folder env base bs t st = process_batch env base st (candidateFiles t) := by
  rw [process_music_folder, orchLoop_eq]
  rfl

/-! ### C5: batch-size invariance -/

/-- C5: running the pipeline with batch size 1 and with any batch size at
least the candidate-file count yields the same final state — the same
destination filesystem and the same manifest rows in the same order
(header aside); batching affects only flush granularity. The optional
cleanup pass is a deterministic function of the resulting layout and so
also cannot differ. -/
theorem c5_batch_size_invariance (env : Env) (base : FPath) (t : Entry)
    (st : PState) (bs : Nat) (_h : (candidateFiles t).length ≤ bs) :
    process_music_folder env base 1 t st = process_music_folder env base bs t st := by
  rw [process_music_folder_eq, process_music_folder_eq]

/-- C5 witness: a three-file source tree processed with batch size 1 and
batch size 5 (≥ 3) ends in identical states. -/
theorem c5_batch_size_invariance_witness :
    (candidateFiles (.dir "" [.file "a.mp3", .dir "d" [.file "b.flac"], .file "n.txt"])).length ≤ 5 ∧
    process_music_folder ⟨fun _ => some ⟨"t", "a", "A", "2020", "B"⟩, fun _ => true⟩ []
        1 (.dir "" [.file "a.mp3", .dir "d" [.file "b.flac"], .file "n.txt"])
        ⟨[([ "a.mp3"], 0), (["d", "b.flac"], 1)], []⟩
      = process_music_folder ⟨fun _ => some ⟨"t", "a", "A", "2020", "B"⟩, fun _ => true⟩ []
        5 (.dir "" [.file "a.mp3", .dir "d" [.file "b.flac"], .file "n.txt"])
        ⟨[([ "a.mp3"], 0), (["d", "b.flac"], 1)], []⟩ :=
  ⟨by decide,
   c5_batch_size_invariance ⟨fun _ => some ⟨"t", "a", "A", "2020", "B"⟩, fun _ => true⟩ []
     (.dir "" [.file "a.mp3", .dir "d" [.file "b.flac"], .file "n.txt"])
     ⟨[([ "a.mp3"], 0), (["d", "b.flac"], 1)], []⟩ 5 (by decide)⟩

/-! ### C9: the scanner's candidate set -/

/-- C9 counterexample: a directory named `d.mp3` has suffix `.mp3` and so
is included in the candidate set — the claim that every directory is
excluded is false on the code, whose filter tests only
`file_path.suffix in MUSIC_EXTENSIONS` over `rglob('*')`. -/
theorem c9_counterexample :
    candidateFiles (.dir "" [.dir "d.mp3" [], .file "song.mp3", .file "notes.txt"])
        = [["d.mp3"], ["song.mp3"]] ∧
    ((Entry.lookupPath (.dir "" [.dir "d.mp3" [], .file "song.mp3", .file "notes.txt"])
        ["d.mp3"]).map Entry.isDir) = some true := by
  refine ⟨?_, ?_⟩ <;> decide

/-- C9 amended: the candidate set contains exactly the entries under the
root — files and directories alike — whose stored extension matches one of
`.mp3`, `.flac`, `.wav`, `.m4a` case-sensitively, in directory-tree
traversal order (a sublist of the traversal); a matching directory is
included too (it is only dropped later, when metadata extraction fails on
it), and the orchestrator processes precisely this set. -/
theorem c9_amended (env : Env) (base : FPath) (bs : Nat) (t : Entry) (st : PState) :
    process_music_folder env base bs t st = process_batch env base st (candidateFiles t) ∧
    List.Sublist (candidateFiles t) ((rglobRoot t).map Prod.fst) ∧
    ∀ p : FPath, (p ∈ candidateFiles t
      ↔ p ∈ (rglobRoot t).map Prod.fst ∧ suffixMatch p = true) := by
  refine ⟨process_music_folder_eq env base bs t st, List.filter_sublist _, ?_⟩
  intro p
  exact List.mem_filter

/-! ### C7: idempotence of the cleanup pass -/

/-- With no failing deletion the collector pass never reports an abort. -/
theorem runPaths_no_abort : ∀ (ps : List FPath) (t : Entry),
    (runPaths (fun _ => false) ps t).2.2 = false := by
  intro ps
  induction ps with
  | nil => intro t; rfl
  | cons p rest ih =>
      intro t
      by_cases he : isEmptyDirAt t p = true
      · simp only [runPaths, if_pos he, if_neg (by simp : ¬(false = true))]
        exact ih (removeAt t p)
      · simp only [runPaths, if_neg he]
        exact ih t

/-- A collector pass that deleted nothing left the tree unchanged. -/
theorem runPaths_deleted_nil : ∀ (ps : List FPath) (t : Entry),
    (runPaths (fun _ => false) ps t).2.1 = [] → (runPaths (fun _ => false) ps t).1 = t := by
  intro ps
  induction ps with
  | nil => intro t _; rfl
  | cons p rest ih =>
      intro t h
      by_cases he : isEmptyDirAt t p = true
      · exfalso
        simp only [runPaths, if_pos he, if_neg (by simp : ¬(false = true))] at h
        exact List.cons_ne_nil _ _ h
      · simp only [runPaths, if_neg he] at h ⊢
        exact ih t h

/-- C7 counterexample: on the tree `A/C` with `C` empty, the first run
deletes only `C` (its parent `A` was visited while still nonempty), so the
second run is not a no-op: it deletes `A`. -/
theorem c7_counterexample :
    (delete_empty_folders (.dir "" [.dir "A" [.dir "C" []]])).2 = [["A", "C"]] ∧
    (delete_empty_folders (delete_empty_folders (.dir "" [.dir "A" [.dir "C" []]])).1).2
      = [["A"]] := by
  refine ⟨?_, ?_⟩ <;> decide

/-- C7 amended: a second run of the collector may delete directories that
the first run's own deletions left empty, so back-to-back runs are not a
no-op in general; the collector is idempotent at its fixpoint: a run that
deletes no directories leaves the tree unchanged, and the run after it
again deletes nothing and reports no error. -/
theorem c7_amended (t : Entry) (h : (delete_empty_folders t).2 = []) :
    (delete_empty_folders t).1 = t ∧
    delete_empty_folders ((delete_empty_folders t).1) = (t, []) ∧
    (deleteEmptyFoldersP (fun _ => false) ((delete_empty_folders t).1)).2.2 = false := by
  have h1 : (delete_empty_folders t).1 = t :=
    runPaths_deleted_nil _ t h
  refine ⟨h1, ?_, ?_⟩
  · rw [h1]
    rw [show delete_empty_folders t = ((delete_empty_folders t).1, (delete_empty_folders t).2) from rfl,
       h1, h]
  · rw [h1]
    exact runPaths_no_abort _ t

/-- C7 witness: on a tree with no empty directory the first run deletes
nothing, and the theorem yields that the next run is a no-op as well. -/
theorem c7_amended_witness :
    (delete_empty_folders (.dir "" [.dir "D" [.file "x.mp3"]])).2 = [] ∧
    delete_empty_folders ((delete_empty_folders (.dir "" [.dir "D" [.file "x.mp3"]])).1)
      = (.dir "" [.dir "D" [.file "x.mp3"]], []) :=
  ⟨by decide, (c7_amended (.dir "" [.dir "D" [.file "x.mp3"]]) (by decide)).2.1⟩

/-! ### C8: error containment during cleanup -/

/-- The code's pass performs a prefix of the deletions the per-directory
containment pass of the spec would perform: the two agree up to the first
failing directory, where the code's pass stops. -/
theorem runPaths_prefix_spec (prot : FPath → Bool) : ∀ (ps : List FPath) (t : Entry),
    (runPaths prot ps t).2.1 <+: (runPathsSpec prot ps t).2 := by
  intro ps
  induction ps with
  | nil => intro t; exact List.prefix_refl _
  | cons p rest ih =>
      intro t
      by_cases he : isEmptyDirAt t p = true
      · by_cases hp : prot p = true
        · simp only [runPaths, runPathsSpec, if_pos he, if_pos hp]
          exact List.nil_prefix
        · simp only [runPaths, runPathsSpec, if_pos he,
            if_neg (fun hc => hp hc), List.cons_prefix_cons]
          exact ⟨by trivial, ih (removeAt t p)⟩
      · simp only [runPaths, runPathsSpec, if_neg he]
        exact ih t

/-- When no deletion failed, the code's pass and the spec's per-directory
containment pass coincide, in final tree and in deletions alike. -/
theorem runPaths_no_abort_spec (prot : FPath → Bool) : ∀ (ps : List FPath) (t : Entry),
    (runPaths prot ps t).2.2 = false →
    (runPaths prot ps t).1 = (runPathsSpec prot ps t).1 ∧
    (runPaths prot ps t).2.1 = (runPathsSpec prot ps t).2 := by
  intro ps
  induction ps with
  | nil => intro t _; exact ⟨rfl, rfl⟩
  | cons p rest ih =>
      intro t h
      by_cases he : isEmptyDirAt t p = true
      · by_cases hp : prot p = true
        · exfalso
          simp only [runPaths, if_pos he, if_pos hp] at h
          exact absurd h (by simp)
        · simp only [runPaths, runPathsSpec, if_pos he, if_neg (fun hc => hp hc)] at h ⊢
          have := ih (removeAt t p) h
          exact ⟨this.1, by rw [this.2]⟩
      · simp only [runPaths, runPathsSpec, if_neg he] at h ⊢
        exact ih t h

/-- C8 counterexample: on a tree with two empty sibling directories `P`
and `S`, where deleting `P` raises, the collector's function-scope error
boundary aborts the whole pass: nothing is deleted, the pass reports the
abort, and the empty sibling `S` survives — while the spec's
per-directory containment would have gone on to delete `S`. -/
theorem c8_counterexample :
    (deleteEmptyFoldersP (fun p => p == [("P" : String)])
        (.dir "" [.dir "P" [], .dir "S" []])).2 = ([], true) ∧
    isEmptyDirAt (deleteEmptyFoldersP (fun p => p == [("P" : String)])
        (.dir "" [.dir "P" [], .dir "S" []])).1 ["S"] = true ∧
    (deleteEmptyFoldersSpec (fun p => p == [("P" : String)])
        (.dir "" [.dir "P" [], .dir "S" []])).2 = [["S"]] := by
  refine ⟨?_, ?_, ?_⟩ <;> decide

/-- C8 amended: a failed deletion is caught at the scope of the whole
cleanup pass, not of the single directory: the collector performs exactly
the deletions that the spec's per-directory-containment collector would
perform up to the first failure and then stops (its deletion list is a
prefix of the latter's), and when no deletion fails the two passes
coincide exactly; the error never propagates out of the collector. -/
theorem c8_amended (prot : FPath → Bool) (t : Entry) :
    (deleteEmptyFoldersP prot t).2.1 <+: (deleteEmptyFoldersSpec prot t).2 ∧
    ((deleteEmptyFoldersP prot t).2.2 = false →
      (deleteEmptyFoldersP prot t).1 = (deleteEmptyFoldersSpec prot t).1 ∧
      (deleteEmptyFoldersP prot t).2.1 = (deleteEmptyFoldersSpec prot t).2) :=
  ⟨runPaths_prefix_spec prot _ t, runPaths_no_abort_spec prot _ t⟩

/-- C8 witness: with no failing directory on the two-siblings tree, the
code pass coincides with the spec's per-directory containment pass. -/
theorem c8_amended_witness :
    (deleteEmptyFoldersP (fun _ => false) (.dir "" [.dir "P" [], .dir "S" []])).2.2 = false ∧
    (deleteEmptyFoldersP (fun _ => false) (.dir "" [.dir "P" [], .dir "S" []])).1
      = (deleteEmptyFoldersSpec (fun _ => false) (.dir "" [.dir "P" [], .dir "S" []])).1 :=
  ⟨by decide,
   ((c8_amended (fun _ => false) (.dir "" [.dir "P" [], .dir "S" []])).2 (by decide)).1⟩
